import Mathlib

/-!
Verification of the board-pattern-finder repository.

This file gives a shallow embedding, in Lean 4, of the algorithmic core of
the repository (the production three-pattern analyzer, the enhanced strict
QR finder-pattern detector, and the grid sampler), and proves theorems
about the embedded definitions.

Modelling conventions:
* Python floats are modelled by exact rationals (`ℚ`); the geometric
  quality metrics that genuinely require `sqrt` are modelled over `ℝ`
  with `Real.sqrt`.
* Pixel buffers are functions `ℤ → ℤ → ℚ` indexed as `img y x`,
  mirroring the `numpy` convention `image[y, x]`.
* `numpy.mean` of an empty list is modelled as `0` (division by zero in
  `ℚ`/`ℝ` yields `0`); every use below is guarded so the empty case is
  never reached on the paths the theorems talk about.
* A comparison `sqrt e < c` on nonnegative data is embedded as
  `e < c^2` (the two are equivalent since `Real.sqrt` is monotone and
  both sides are nonnegative); each such spot is marked by a comment.
-/

namespace Production

/-- A detected-pattern center, `{'x': ..., 'y': ...}` in the source JSON. -/
structure Center where
  x : ℚ
  y : ℚ
deriving DecidableEq, Repr

/-- A pattern record as consumed by `ProductionQRThreePatternAnalyzer`:
a center plus the `total_score` field read by `p.get('total_score', 0)`. -/
structure ProdPattern where
  center : Center
  total_score : ℚ
deriving DecidableEq, Repr

/-- The `{'top_left': ..., 'top_right': ..., 'bottom_left': ...}` mapping
returned by `identify_pattern_positions`. -/
structure Positions where
  top_left : ProdPattern
  top_right : ProdPattern
  bottom_left : ProdPattern
deriving DecidableEq, Repr

/-- Comparison key of the first sort in `identify_pattern_positions`:
`pattern_coords.sort(key=lambda p: p[0])`. -/
def leX (p q : ProdPattern) : Prop := p.center.x ≤ q.center.x

/-- Comparison key of the second sort: `left_patterns.sort(key=lambda p: p[1])`. -/
def leY (p q : ProdPattern) : Prop := p.center.y ≤ q.center.y

instance : DecidableRel leX := fun _ _ => inferInstanceAs (Decidable (_ ≤ _))

instance : DecidableRel leY := fun _ _ => inferInstanceAs (Decidable (_ ≤ _))

instance : IsTotal ProdPattern leX := ⟨fun _ _ => le_total _ _⟩

instance : IsTrans ProdPattern leX := ⟨fun _ _ _ => le_trans⟩

instance : IsTotal ProdPattern leY := ⟨fun _ _ => le_total _ _⟩

instance : IsTrans ProdPattern leY := ⟨fun _ _ _ => le_trans⟩

/-- `identify_pattern_positions` (src/production_qr_analyzer.py:49-78).
Sorts the three patterns by x-coordinate (Python's stable sort is modelled
by `List.insertionSort`, which is also stable), takes the two leftmost as
the left side and the rightmost as top-right, then orders the left pair by
y-coordinate. -/
def identify_pattern_positions (patterns : List ProdPattern) : Option Positions :=
  if patterns.length ≠ 3 then none
  else
    match List.insertionSort leX patterns with
    | [p0, p1, p2] =>
        match List.insertionSort leY [p0, p1] with
        | [q0, q1] => some ⟨q0, p2, q1⟩
        | _ => none
    | _ => none

/-- `calculate_fourth_corner` (src/production_qr_analyzer.py:80-98):
parallelogram rule `BR = TL + BL - TR`, component-wise. -/
def calculate_fourth_corner (positions : Positions) : ℚ × ℚ :=
  let tl := positions.top_left.center
  let bl := positions.bottom_left.center
  let tr := positions.top_right.center
  (tl.x + bl.x - tr.x, tl.y + bl.y - tr.y)

/-- Euclidean distance between two points, `np.sqrt((x2-x1)**2 + (y2-y1)**2)`. -/
noncomputable def distance (x1 y1 x2 y2 : ℚ) : ℝ :=
  Real.sqrt (((x2 : ℝ) - x1) ^ 2 + ((y2 : ℝ) - y1) ^ 2)

/-- The `measurements` sub-dictionary of `calculate_quality_metrics`
(src/production_qr_analyzer.py:100-172). -/
structure Measurements where
  top_side : ℝ
  bottom_side : ℝ
  left_side : ℝ
  right_side : ℝ
  width : ℝ
  height : ℝ
  aspect_ratio : ℝ

/-- The `quality` sub-dictionary of `calculate_quality_metrics`. -/
structure Quality where
  side_consistency : ℝ
  height_consistency : ℝ
  aspect_deviation : ℝ
  corner_valid : Prop

/-- Configuration of `ProductionQRThreePatternAnalyzer.__init__`
(src/production_qr_analyzer.py:26-32). -/
def min_corner_threshold : ℚ := 0
def max_corner_threshold : ℚ := 2000
noncomputable def max_aspect_deviation : ℝ := 1
noncomputable def min_side_consistency : ℝ := 7/10
noncomputable def min_total_score : ℝ := 1/2

open Classical in
/-- `calculate_quality_metrics` (src/production_qr_analyzer.py:100-172),
restricted to the fields the analyzer reads downstream (the shoelace `area`
is computed by the source but never used for control flow or validation).
`aspect_ratio` is `width / height if height > 0 else 0`; in `ℝ`, division
by zero already yields `0`, so plain division models both branches. -/
noncomputable def calculate_quality_metrics (positions : Positions) (fc : ℚ × ℚ) :
    Measurements × Quality :=
  let tl := positions.top_left.center
  let bl := positions.bottom_left.center
  let tr := positions.top_right.center
  let top_side := distance tl.x tl.y tr.x tr.y
  let bottom_side := distance bl.x bl.y fc.1 fc.2
  let left_side := distance tl.x tl.y bl.x bl.y
  let right_side := distance tr.x tr.y fc.1 fc.2
  let width := (top_side + bottom_side) / 2
  let height := (left_side + right_side) / 2
  let aspect_ratio := width / height
  let side_consistency :=
    if 0 < max top_side bottom_side then
      1 - |top_side - bottom_side| / max top_side bottom_side
    else 0
  let height_consistency :=
    if 0 < max left_side right_side then
      1 - |left_side - right_side| / max left_side right_side
    else 0
  let aspect_deviation := |aspect_ratio - 1|
  let corner_valid :=
    min_corner_threshold ≤ fc.1 ∧ min_corner_threshold ≤ fc.2 ∧
    fc.1 ≤ max_corner_threshold ∧ fc.2 ≤ max_corner_threshold
  (⟨top_side, bottom_side, left_side, right_side, width, height, aspect_ratio⟩,
   ⟨side_consistency, height_consistency, aspect_deviation, corner_valid⟩)

open Classical in
/-- `score_pattern_combination` (src/production_qr_analyzer.py:174-193). -/
noncomputable def score_pattern_combination (patterns : List ProdPattern)
    (positions : Positions) (fc : ℚ × ℚ) : ℝ :=
  let metrics := calculate_quality_metrics positions fc
  let side_score := metrics.2.side_consistency
  let height_score := metrics.2.height_consistency
  let aspect_score := max 0 (1 - metrics.2.aspect_deviation)
  let corner_score := if metrics.2.corner_valid then (1 : ℝ) else 0
  let avg_pattern_score :=
    ((patterns.map ProdPattern.total_score).sum : ℝ) / (patterns.length : ℝ)
  side_score * (25/100) + height_score * (25/100) +
    aspect_score * (25/100) + corner_score * (15/100) +
    avg_pattern_score * (10/100)

/-- A pattern combination as assembled by `find_optimal_pattern_combination`
(src/production_qr_analyzer.py:195-227): patterns, role assignment, fourth
corner, and the combination score. -/
structure Combination where
  patterns : List ProdPattern
  positions : Positions
  fourth_corner : ℚ × ℚ
  score : ℝ

/-- `validate_qr_geometry` (src/production_qr_analyzer.py:229-242):
all five production criteria must hold. -/
noncomputable def validate_qr_geometry (c : Combination) : Prop :=
  let metrics := calculate_quality_metrics c.positions c.fourth_corner
  c.score ≥ min_total_score ∧
  metrics.2.side_consistency ≥ min_side_consistency ∧
  metrics.2.height_consistency ≥ min_side_consistency ∧
  metrics.2.aspect_deviation ≤ max_aspect_deviation ∧
  metrics.2.corner_valid

/-- A candidate with a given center and `total_score = 0` (the default the
analyzer reads when the detection JSON carries no `total_score` key). -/
def mkPattern (x y : ℚ) : ProdPattern := ⟨⟨x, y⟩, 0⟩

/-- Role assignment of the unit-square test case `TL=(0,0), TR=(10,0), BL=(0,10)`. -/
def squarePos : Positions := ⟨mkPattern 0 0, mkPattern 10 0, mkPattern 0 10⟩

/-- The combination `find_optimal_pattern_combination` builds for the square case. -/
noncomputable def squareCombo : Combination :=
  ⟨[mkPattern 0 0, mkPattern 10 0, mkPattern 0 10], squarePos,
   calculate_fourth_corner squarePos,
   score_pattern_combination [mkPattern 0 0, mkPattern 10 0, mkPattern 0 10]
     squarePos (calculate_fourth_corner squarePos)⟩

/-- Role assignment `TL=(10,0), TR=(13,0), BL=(10,8)` (a narrow upright
rectangle, chosen so that every derived side length is rational). -/
def skewPos : Positions := ⟨mkPattern 10 0, mkPattern 13 0, mkPattern 10 8⟩

/-- The combination `find_optimal_pattern_combination` builds for `skewPos`. -/
noncomputable def skewCombo : Combination :=
  ⟨[mkPattern 10 0, mkPattern 13 0, mkPattern 10 8], skewPos,
   calculate_fourth_corner skewPos,
   score_pattern_combination [mkPattern 10 0, mkPattern 13 0, mkPattern 10 8]
     skewPos (calculate_fourth_corner skewPos)⟩

lemma distance_eq_of_sq (x1 y1 x2 y2 : ℚ) (r : ℝ) (hr : 0 ≤ r)
    (h : ((x2 : ℝ) - (x1 : ℝ)) ^ 2 + ((y2 : ℝ) - (y1 : ℝ)) ^ 2 = r ^ 2) :
    distance x1 y1 x2 y2 = r := by
  rw [distance, h, Real.sqrt_sq hr]

lemma square_fc : calculate_fourth_corner squarePos = (-10, 10) := by
  simp [calculate_fourth_corner, squarePos, mkPattern]

lemma skew_fc : calculate_fourth_corner skewPos = (7, 8) := by
  simp [calculate_fourth_corner, skewPos, mkPattern]
  norm_num

lemma skew_validate : validate_qr_geometry skewCombo := by
  have d1 : distance 10 0 13 0 = 3 := distance_eq_of_sq _ _ _ _ 3 (by norm_num) (by norm_num)
  have d2 : distance 10 8 7 8 = 3 := distance_eq_of_sq _ _ _ _ 3 (by norm_num) (by norm_num)
  have d3 : distance 10 0 10 8 = 8 := distance_eq_of_sq _ _ _ _ 8 (by norm_num) (by norm_num)
  have d4 : distance 13 0 7 8 = 10 := distance_eq_of_sq _ _ _ _ 10 (by norm_num) (by norm_num)
  simp only [validate_qr_geometry, skewCombo]
  rw [skew_fc]
  simp only [score_pattern_combination, calculate_quality_metrics, skewPos, mkPattern,
    min_total_score, min_side_consistency, max_aspect_deviation,
    min_corner_threshold, max_corner_threshold]
  rw [d1, d2, d3, d4]
  norm_num
  rw [show |(2/3 : ℝ)| = 2/3 from abs_of_pos (by norm_num),
    show (0:ℝ) ⊔ (1 - 2/3) = 1/3 by rw [max_eq_right] <;> norm_num]
  norm_num

lemma skew_aspect :
    (calculate_quality_metrics skewPos (7, 8)).1.aspect_ratio = 1 / 3 := by
  have d1 : distance 10 0 13 0 = 3 := distance_eq_of_sq _ _ _ _ 3 (by norm_num) (by norm_num)
  have d2 : distance 10 8 7 8 = 3 := distance_eq_of_sq _ _ _ _ 3 (by norm_num) (by norm_num)
  have d3 : distance 10 0 10 8 = 8 := distance_eq_of_sq _ _ _ _ 8 (by norm_num) (by norm_num)
  have d4 : distance 13 0 7 8 = 10 := distance_eq_of_sq _ _ _ _ 10 (by norm_num) (by norm_num)
  simp only [calculate_quality_metrics, skewPos, mkPattern]
  rw [d1, d2, d3, d4]
  norm_num

lemma square_aspect_ne_one :
    (calculate_quality_metrics squarePos (-10, 10)).1.aspect_ratio ≠ 1 := by
  have d1 : distance 0 0 10 0 = 10 := distance_eq_of_sq _ _ _ _ 10 (by norm_num) (by norm_num)
  have d2 : distance 0 10 (-10) 10 = 10 := distance_eq_of_sq _ _ _ _ 10 (by norm_num) (by norm_num)
  have d3 : distance 0 0 0 10 = 10 := distance_eq_of_sq _ _ _ _ 10 (by norm_num) (by norm_num)
  have d4 : distance 10 0 (-10) 10 = Real.sqrt 500 := by
    rw [distance]
    norm_num
  have hs : (22 : ℝ) < Real.sqrt 500 := (Real.lt_sqrt (by norm_num)).mpr (by norm_num)
  simp only [calculate_quality_metrics, squarePos, mkPattern]
  rw [d1, d2, d3, d4]
  have hpos : (0 : ℝ) < (10 + Real.sqrt 500) / 2 := by linarith
  have hlt : ((10 : ℝ) + 10) / 2 / ((10 + Real.sqrt 500) / 2) < 1 := by
    rw [div_lt_one hpos]
    linarith
  exact ne_of_lt hlt

/-- C1: the fourth-corner solver computes `BR = TL + BL - TR` component-wise,
exactly as the source formula reads — but that formula does not yield the
bottom-right corner: on the spec's own test vector `TL=(0,0), TR=(10,0),
BL=(0,10)` it returns `(-10, 10)`, not `(10, 10)`; the resulting aspect
ratio is not `1`; and `validate_qr_geometry` rejects the combination
(the fourth corner's x-coordinate is below `min_corner_threshold = 0`).
The geometrically correct parallelogram formula for the bottom-right
corner is `TR + BL - TL`. -/
theorem C1_fourth_corner_formula_bug :
    (∀ pos : Positions, calculate_fourth_corner pos =
      (pos.top_left.center.x + pos.bottom_left.center.x - pos.top_right.center.x,
       pos.top_left.center.y + pos.bottom_left.center.y - pos.top_right.center.y)) ∧
    calculate_fourth_corner squarePos = (-10, 10) ∧
    calculate_fourth_corner squarePos ≠ (10, 10) ∧
    (calculate_quality_metrics squarePos (calculate_fourth_corner squarePos)).1.aspect_ratio ≠ 1 ∧
    ¬ validate_qr_geometry squareCombo := by
  refine ⟨fun pos => rfl, square_fc, ?_, ?_, ?_⟩
  · rw [square_fc]
    intro h
    have := congrArg Prod.fst h
    norm_num at this
  · rw [square_fc]
    exact square_aspect_ne_one
  · intro h
    have hc := h.2.2.2.2
    rw [show squareCombo.fourth_corner = (-10, 10) from square_fc] at hc
    have h0 := hc.1
    rw [min_corner_threshold] at h0
    norm_num at h0

/-- C2: corner-role assignment returns `none` for input size ≠ 3; for three
candidates with pairwise-distinct centers it returns an assignment that is a
permutation of the input in which `top_right` carries a maximal x-coordinate,
both left-side roles have x-coordinates not exceeding it, and `top_left`'s
y-coordinate does not exceed `bottom_left`'s. -/
theorem C2_corner_role_assignment :
    (∀ ps : List ProdPattern, ps.length ≠ 3 → identify_pattern_positions ps = none) ∧
    (∀ p1 p2 p3 : ProdPattern,
      p1.center ≠ p2.center → p1.center ≠ p3.center → p2.center ≠ p3.center →
      ∃ r : Positions, identify_pattern_positions [p1, p2, p3] = some r ∧
        [r.top_left, r.bottom_left, r.top_right].Perm [p1, p2, p3] ∧
        (∀ p ∈ [p1, p2, p3], p.center.x ≤ r.top_right.center.x) ∧
        r.top_left.center.x ≤ r.top_right.center.x ∧
        r.bottom_left.center.x ≤ r.top_right.center.x ∧
        r.top_left.center.y ≤ r.bottom_left.center.y) := by
  constructor
  · intro ps h
    simp [identify_pattern_positions, h]
  · intro p1 p2 p3 _ _ _
    have hperm : (List.insertionSort leX [p1, p2, p3]).Perm [p1, p2, p3] :=
      List.perm_insertionSort leX [p1, p2, p3]
    have hsorted : List.Sorted leX (List.insertionSort leX [p1, p2, p3]) :=
      List.sorted_insertionSort leX [p1, p2, p3]
    have hlen : (List.insertionSort leX [p1, p2, p3]).length = 3 := by
      rw [hperm.length_eq]
      rfl
    obtain ⟨a, b, c, heq⟩ := List.length_eq_three.mp hlen
    rw [heq] at hperm hsorted
    have hs1 := List.sorted_cons.mp hsorted
    have hs2 := List.sorted_cons.mp hs1.2
    have hab : leX a b := hs1.1 b (by simp)
    have hac : leX a c := hs1.1 c (by simp)
    have hbc : leX b c := hs2.1 c (by simp)
    have hmem : ∀ p ∈ [p1, p2, p3], p.center.x ≤ c.center.x := by
      intro p hp
      have hp' : p ∈ [a, b, c] := hperm.mem_iff.mpr hp
      simp only [List.mem_cons, List.not_mem_nil, or_false] at hp'
      rcases hp' with h | h | h
      · exact h ▸ hac
      · exact h ▸ hbc
      · exact h ▸ le_refl _
    by_cases hy : leY a b
    · refine ⟨⟨a, c, b⟩, ?_, ?_, hmem, hac, hbc, hy⟩
      · simp only [identify_pattern_positions]
        rw [if_neg (by simp), heq]
        simp [List.insertionSort, List.orderedInsert, hy]
      · exact hperm
    · have hy' : leY b a := le_of_not_le hy
      refine ⟨⟨b, c, a⟩, ?_, ?_, hmem, hbc, hac, hy'⟩
      · simp only [identify_pattern_positions]
        rw [if_neg (by simp), heq]
        simp [List.insertionSort, List.orderedInsert, hy]
      · exact (List.Perm.swap a b [c]).trans hperm

/-- Witness for `C2_corner_role_assignment` at a concrete input: the empty
list has length ≠ 3, and the three unit-square candidates have pairwise
distinct centers; the roles land as predicted. -/
theorem C2_corner_role_assignment_witness :
    identify_pattern_positions [] = none ∧
    ∃ r : Positions,
      identify_pattern_positions [mkPattern 0 0, mkPattern 10 0, mkPattern 0 10] = some r ∧
      [r.top_left, r.bottom_left, r.top_right].Perm
        [mkPattern 0 0, mkPattern 10 0, mkPattern 0 10] ∧
      (∀ p ∈ [mkPattern 0 0, mkPattern 10 0, mkPattern 0 10],
        p.center.x ≤ r.top_right.center.x) ∧
      r.top_left.center.x ≤ r.top_right.center.x ∧
      r.bottom_left.center.x ≤ r.top_right.center.x ∧
      r.top_left.center.y ≤ r.bottom_left.center.y := by
  constructor
  · exact C2_corner_role_assignment.1 [] (by simp)
  · exact C2_corner_role_assignment.2 (mkPattern 0 0) (mkPattern 10 0) (mkPattern 0 10)
      (by decide) (by decide) (by decide)

/-- C5 counterexample: the combination with roles `TL=(10,0), TR=(13,0),
BL=(10,8)` (fourth corner `(7,8)`, sides 3, 3, 8, 10) passes
`validate_qr_geometry`, yet its aspect ratio is `1/3 < 0.5`.  The claim
that validation passes only for aspect ratios in `[0.5, 2.0]` is false. -/
theorem C5_counterexample_aspect_below_half :
    validate_qr_geometry skewCombo ∧
    (calculate_quality_metrics skewCombo.positions skewCombo.fourth_corner).1.aspect_ratio
      < 1/2 := by
  refine ⟨skew_validate, ?_⟩
  show (calculate_quality_metrics skewPos (calculate_fourth_corner skewPos)).1.aspect_ratio < 1/2
  rw [skew_fc, skew_aspect]
  norm_num

/-- C5 (amended): validation enforces `aspect_deviation = |ratio - 1| ≤ 1`,
i.e. a validated combination has aspect ratio in `[0, 2]`; the lower bound
`0.5` of the claim is not enforced by the code. -/
theorem C5_validated_aspect_in_zero_two (c : Combination)
    (h : validate_qr_geometry c) :
    0 ≤ (calculate_quality_metrics c.positions c.fourth_corner).1.aspect_ratio ∧
    (calculate_quality_metrics c.positions c.fourth_corner).1.aspect_ratio ≤ 2 := by
  have hdev := h.2.2.2.1
  rw [max_aspect_deviation] at hdev
  have heq : (calculate_quality_metrics c.positions c.fourth_corner).2.aspect_deviation =
      |(calculate_quality_metrics c.positions c.fourth_corner).1.aspect_ratio - 1| := rfl
  rw [heq] at hdev
  have := abs_le.mp hdev
  constructor <;> linarith [this.1, this.2]

/-- Witness for `C5_validated_aspect_in_zero_two`: the validating skew
combination has its aspect ratio inside `[0, 2]`. -/
theorem C5_validated_aspect_in_zero_two_witness :
    0 ≤ (calculate_quality_metrics skewCombo.positions skewCombo.fourth_corner).1.aspect_ratio ∧
    (calculate_quality_metrics skewCombo.positions skewCombo.fourth_corner).1.aspect_ratio ≤ 2 :=
  C5_validated_aspect_in_zero_two skewCombo skew_validate

end Production

namespace Detector

/-!
Embedding of `EnhancedStrictQRDetector` (src/enhanced_strict_qr_detector.py)
with the tolerance it is constructed with in `process_qr_ratio_finder_with_debug`
(`ratio_tolerance=0.22`, also the constructor default).
-/

/-- `self.ratio_tolerance` (src/enhanced_strict_qr_detector.py:22). -/
def ratio_tolerance : ℚ := 22/100

/-- `np.mean` over a list of rationals; the empty list yields `0`
(division by zero in `ℚ`). -/
def listMean (l : List ℚ) : ℚ := l.sum / l.length

/-- Population variance, i.e. the square of `np.std`.  The source compares
`np.std(side_ratios) < 0.08`; since `Real.sqrt` is monotone and both sides
are nonnegative this is equivalent to `variance < 0.08^2`, which is how the
comparison is embedded below (keeping everything inside `ℚ`). -/
def listVariance (l : List ℚ) : ℚ :=
  (l.map (fun x => (x - listMean l) ^ 2)).sum / l.length

/-- Rejection reasons of `analyze_strict_qr_line_pattern`
(the source stores them as strings: `'insufficient length'`,
`'only N runs, need 5+'`, `'does not start with black'`,
`'pattern breaks at position K'`). -/
inductive LineReason where
  | insufficientLength
  | tooFewRuns (n : ℕ)
  | notStartBlack
  | patternBreak (i : ℕ)
deriving DecidableEq, Repr

/-- Scan directions of `analyze_strict_qr_pattern_structure`
(src/enhanced_strict_qr_detector.py:140-145); the source labels them with
the strings `horizontal`, `vertical`, `diagonal`, `anti-diagonal`. -/
inductive Direction where
  | horizontal
  | vertical
  | diagonal
  | antiDiagonal
deriving DecidableEq, Repr

/-- Result dictionary of `analyze_strict_qr_line_pattern`
(src/enhanced_strict_qr_detector.py:184-291).  Keys absent from a rejected
result are modelled as `[]`/`false`; the diagnostic `ratio_matches` counter
is omitted (it is stored but never read). -/
structure LineResult where
  direction : Direction
  score : ℚ
  reason : Option LineReason
  runs : List (ℕ × ℕ)
  line_length : ℕ
  ratios : List ℚ
  deviations : List ℚ
  center_dominant : Bool
  side_consistent : Bool
deriving Repr

/-- Local binarization of a 1D pixel line with its own mean as threshold:
`[0 if p < threshold else 1 for p in line_pixels]`. -/
def binarizeLine (line : List ℚ) : List ℕ :=
  line.map (fun p => if p < listMean line then 0 else 1)

/-- Run-length encoding helper: accumulates the current run `(v, len)`. -/
def rleAux (v : ℕ) (len : ℕ) : List ℕ → List (ℕ × ℕ)
  | [] => [(v, len)]
  | x :: xs => if x = v then rleAux v (len + 1) xs else (v, len) :: rleAux x 1 xs

/-- Run-length encoding of a binary line
(src/enhanced_strict_qr_detector.py:195-207). -/
def rle : List ℕ → List (ℕ × ℕ)
  | [] => []
  | x :: xs => rleAux x 1 xs

/-- `ideal_ratios = [1/8, 1/8, 3/8, 1/8, 1/8]`. -/
def ideal_ratios : List ℚ := [1/8, 1/8, 3/8, 1/8, 1/8]

/-- Per-position credit of the ratio score
(src/enhanced_strict_qr_detector.py:253-261). -/
def ratioContribution (tol : ℚ) (dev : ℚ) : ℚ :=
  if dev < tol * (1/2) then 1
  else if dev < tol then 7/10
  else if dev < tol * (3/2) then 3/10
  else 0

/-- `analyze_strict_qr_line_pattern` (src/enhanced_strict_qr_detector.py:184-291).
The source's alternation loop checks `runs[i][0] == [0,1,0,1,0][i]` for
`i = 0..4` after the separate start-with-black check, so position 0 can
never be the reported break; the sequential checks below mirror that. -/
def analyze_strict_qr_line_pattern (tol : ℚ) (line : List ℚ) (direction : Direction) :
    LineResult :=
  if line.length < 11 then
    ⟨direction, 0, some .insufficientLength, [], line.length, [], [], false, false⟩
  else
    let runs := rle (binarizeLine line)
    match runs with
    | (v0, l0) :: (v1, l1) :: (v2, l2) :: (v3, l3) :: (v4, l4) :: _ =>
      if v0 ≠ 0 then
        ⟨direction, 0, some .notStartBlack, runs, line.length, [], [], false, false⟩
      else if v1 ≠ 1 then
        ⟨direction, 0, some (.patternBreak 1), runs, line.length, [], [], false, false⟩
      else if v2 ≠ 0 then
        ⟨direction, 0, some (.patternBreak 2), runs, line.length, [], [], false, false⟩
      else if v3 ≠ 1 then
        ⟨direction, 0, some (.patternBreak 3), runs, line.length, [], [], false, false⟩
      else if v4 ≠ 0 then
        ⟨direction, 0, some (.patternBreak 4), runs, line.length, [], [], false, false⟩
      else
        let total : ℚ := (l0 : ℚ) + l1 + l2 + l3 + l4
        let ratios : List ℚ := [(l0 : ℚ) / total, (l1 : ℚ) / total, (l2 : ℚ) / total,
          (l3 : ℚ) / total, (l4 : ℚ) / total]
        let deviations : List ℚ := List.zipWith (fun x y => |x - y|) ratios ideal_ratios
        let ratio_score : ℚ := (deviations.map (ratioContribution tol)).sum / 5
        let center_ratio : ℚ := (l2 : ℚ) / total
        let side_max : ℚ := max (max ((l0 : ℚ) / total) ((l1 : ℚ) / total))
          (max ((l3 : ℚ) / total) ((l4 : ℚ) / total))
        let center_dominant : Bool := decide (center_ratio > side_max * (11/10))
        let side_variance : ℚ := listVariance [(l0 : ℚ) / total, (l1 : ℚ) / total,
          (l3 : ℚ) / total, (l4 : ℚ) / total]
        let side_consistent : Bool := decide (side_variance < (8/100) ^ 2)
        let final_score : ℚ := ratio_score + (if center_dominant then 1/5 else 0) +
          (if side_consistent then 1/10 else 0)
        ⟨direction, min 1 final_score, none, runs, line.length, ratios, deviations,
          center_dominant, side_consistent⟩
    | _ =>
      ⟨direction, 0, some (.tooFewRuns runs.length), runs, line.length, [], [], false, false⟩

/-- A 1D pixel line whose binarized run lengths are `[5, 5, 15, 5, 5]`:
five dark, five light, fifteen dark, five light, five dark pixels. -/
def exactLine : List ℚ :=
  List.replicate 5 0 ++ List.replicate 5 255 ++ List.replicate 15 0 ++
    List.replicate 5 255 ++ List.replicate 5 0

lemma exactLine_mean : listMean exactLine = 510/7 := by
  simp [listMean, exactLine, List.replicate]
  norm_num

lemma exactLine_runs :
    rle (binarizeLine exactLine) = [(0, 5), (1, 5), (0, 15), (1, 5), (0, 5)] := by
  have hb : binarizeLine exactLine =
      List.replicate 5 0 ++ List.replicate 5 1 ++ List.replicate 15 0 ++
        List.replicate 5 1 ++ List.replicate 5 0 := by
    simp only [binarizeLine, exactLine_mean]
    simp [exactLine, List.replicate]
    norm_num
  rw [hb]
  simp [List.replicate]
  norm_num [rle, rleAux]

lemma exactLine_length : exactLine.length = 35 := by
  simp [exactLine]

/-- C4 (amended): for a line of ≥ 11 pixels whose binarized run-length
encoding starts with five runs of lengths in exact ratio `1:1:3:1:1`
(`a, a, 3a, a, a`), the analysis reports ratios `[1/7, 1/7, 3/7, 1/7, 1/7]`
(the run lengths are normalized by the sum `7a` of the first five runs, not
by `8`) and a score of exactly `1`. -/
theorem C4_exact_ratio_line (line : List ℚ) (direction : Direction)
    (a : ℕ) (rest : List (ℕ × ℕ)) (ha : 0 < a)
    (hlen : ¬ line.length < 11)
    (hruns : rle (binarizeLine line) =
      (0, a) :: (1, a) :: (0, 3 * a) :: (1, a) :: (0, a) :: rest) :
    (analyze_strict_qr_line_pattern ratio_tolerance line direction).ratios
      = [1/7, 1/7, 3/7, 1/7, 1/7] ∧
    (analyze_strict_qr_line_pattern ratio_tolerance line direction).score = 1 := by
  have ha' : ((a : ℚ)) ≠ 0 := Nat.cast_ne_zero.mpr ha.ne'
  have h7a : (7 : ℚ) * (a : ℚ) ≠ 0 := mul_ne_zero (by norm_num) ha'
  have htot : ((a : ℚ)) + (a : ℚ) + ((3 * a : ℕ) : ℚ) + (a : ℚ) + (a : ℚ)
      = 7 * (a : ℚ) := by push_cast; ring
  have e1 : ((a : ℚ)) / (7 * (a : ℚ)) = 1 / 7 := by
    rw [div_eq_div_iff h7a (by norm_num)]; ring
  have e3 : (((3 * a : ℕ) : ℚ)) / (7 * (a : ℚ)) = 3 / 7 := by
    push_cast
    rw [div_eq_div_iff h7a (by norm_num)]; ring
  simp only [analyze_strict_qr_line_pattern, if_neg hlen, hruns]
  simp only [ne_eq, not_true_eq_false, if_false, not_false_eq_true, if_true,
    OfNat.ofNat_ne_zero, OfNat.ofNat_ne_one, zero_ne_one, one_ne_zero,
    ite_false, ite_true, htot, e1, e3]
  constructor
  · norm_num
  · simp only [ideal_ratios, List.zipWith, listVariance, listMean]
    norm_num
    simp only [show |(1 : ℚ)/56| = 1/56 from abs_of_pos (by norm_num),
      show |(3 : ℚ)/56| = 3/56 from abs_of_pos (by norm_num)]
    norm_num [ratioContribution, ratio_tolerance]

/-- Witness for `C4_exact_ratio_line` at the concrete line with run lengths
`[5, 5, 15, 5, 5]`. -/
theorem C4_exact_ratio_line_witness :
    (analyze_strict_qr_line_pattern ratio_tolerance exactLine Direction.horizontal).ratios
      = [1/7, 1/7, 3/7, 1/7, 1/7] ∧
    (analyze_strict_qr_line_pattern ratio_tolerance exactLine Direction.horizontal).score = 1 :=
  C4_exact_ratio_line exactLine Direction.horizontal 5 [] (by norm_num)
    (by rw [exactLine_length]; norm_num)
    (by rw [exactLine_runs])

lemma exactLine_ratios_eval :
    (analyze_strict_qr_line_pattern ratio_tolerance exactLine Direction.horizontal).ratios
      = [1/7, 1/7, 3/7, 1/7, 1/7] := by
  have hlen : ¬ exactLine.length < 11 := by rw [exactLine_length]; norm_num
  simp only [analyze_strict_qr_line_pattern, if_neg hlen, exactLine_runs]
  norm_num

/-- C4 counterexample: on the line with run lengths `[5, 5, 15, 5, 5]` the
reported ratios are `[1/7, 1/7, 3/7, 1/7, 1/7]` (the five run lengths are
normalized by their own sum `35`), not `[0.125, 0.125, 0.375, 0.125, 0.125]`
as claimed. -/
theorem C4_counterexample_ratios_are_sevenths :
    (analyze_strict_qr_line_pattern ratio_tolerance exactLine Direction.horizontal).ratios
      = [1/7, 1/7, 3/7, 1/7, 1/7] ∧
    (analyze_strict_qr_line_pattern ratio_tolerance exactLine Direction.horizontal).ratios
      ≠ [1/8, 1/8, 3/8, 1/8, 1/8] := by
  refine ⟨exactLine_ratios_eval, ?_⟩
  rw [exactLine_ratios_eval]
  intro h
  simp only [List.cons.injEq] at h
  norm_num at h

lemma ratioContribution_nonneg (d : ℚ) : 0 ≤ ratioContribution ratio_tolerance d := by
  unfold ratioContribution
  split_ifs <;> norm_num

lemma ratioContribution_ge_of_small (d : ℚ) (h : d < 33/100) :
    3/10 ≤ ratioContribution ratio_tolerance d := by
  unfold ratioContribution ratio_tolerance
  split_ifs with h1 h2 h3
  · norm_num
  · norm_num
  · norm_num
  · exact absurd (by linarith : d < 22/100 * (3/2)) h3

/-- If all four side deviations were at least `0.33`, all four side ratios
would be at least `0.455` and hence sum past `1`; so at least one side run
always earns ratio credit, making the ratio score strictly positive. -/
lemma contributions_pos (s0 s1 s2 s3 s4 : ℚ)
    (h0 : 0 ≤ s0) (h1 : 0 ≤ s1) (h3 : 0 ≤ s3) (h4 : 0 ≤ s4)
    (hsum : s0 + s1 + s3 + s4 ≤ 1) :
    0 < ratioContribution ratio_tolerance |s0 - 1/8| +
        ratioContribution ratio_tolerance |s1 - 1/8| +
        ratioContribution ratio_tolerance |s2 - 3/8| +
        ratioContribution ratio_tolerance |s3 - 1/8| +
        ratioContribution ratio_tolerance |s4 - 1/8| := by
  have c0 := ratioContribution_nonneg |s0 - 1/8|
  have c1 := ratioContribution_nonneg |s1 - 1/8|
  have c2 := ratioContribution_nonneg |s2 - 3/8|
  have c3 := ratioContribution_nonneg |s3 - 1/8|
  have c4 := ratioContribution_nonneg |s4 - 1/8|
  by_cases hd0 : |s0 - 1/8| < 33/100
  · have := ratioContribution_ge_of_small _ hd0; linarith
  by_cases hd1 : |s1 - 1/8| < 33/100
  · have := ratioContribution_ge_of_small _ hd1; linarith
  by_cases hd3 : |s3 - 1/8| < 33/100
  · have := ratioContribution_ge_of_small _ hd3; linarith
  by_cases hd4 : |s4 - 1/8| < 33/100
  · have := ratioContribution_ge_of_small _ hd4; linarith
  exfalso
  push_neg at hd0 hd1 hd3 hd4
  have hs0 : 455/1000 ≤ s0 := by
    rcases abs_cases (s0 - 1/8) with ⟨he, _⟩ | ⟨he, _⟩ <;> rw [he] at hd0 <;> linarith
  have hs1 : 455/1000 ≤ s1 := by
    rcases abs_cases (s1 - 1/8) with ⟨he, _⟩ | ⟨he, _⟩ <;> rw [he] at hd1 <;> linarith
  have hs3 : 455/1000 ≤ s3 := by
    rcases abs_cases (s3 - 1/8) with ⟨he, _⟩ | ⟨he, _⟩ <;> rw [he] at hd3 <;> linarith
  have hs4 : 455/1000 ≤ s4 := by
    rcases abs_cases (s4 - 1/8) with ⟨he, _⟩ | ⟨he, _⟩ <;> rw [he] at hd4 <;> linarith
  linarith

lemma side_sum_le_one (l0 l1 l2 l3 l4 : ℕ) :
    (l0 : ℚ) / ((l0 : ℚ) + (l1 : ℚ) + (l2 : ℚ) + (l3 : ℚ) + (l4 : ℚ)) +
    (l1 : ℚ) / ((l0 : ℚ) + (l1 : ℚ) + (l2 : ℚ) + (l3 : ℚ) + (l4 : ℚ)) +
    (l3 : ℚ) / ((l0 : ℚ) + (l1 : ℚ) + (l2 : ℚ) + (l3 : ℚ) + (l4 : ℚ)) +
    (l4 : ℚ) / ((l0 : ℚ) + (l1 : ℚ) + (l2 : ℚ) + (l3 : ℚ) + (l4 : ℚ)) ≤ 1 := by
  have hT : (0 : ℚ) ≤ (l0 : ℚ) + (l1 : ℚ) + (l2 : ℚ) + (l3 : ℚ) + (l4 : ℚ) := by positivity
  rcases hT.eq_or_lt with h | h
  · rw [← h]
    simp
  · rw [div_add_div_same, div_add_div_same, div_add_div_same, div_le_one h]
    have h2 : (0 : ℚ) ≤ (l2 : ℚ) := Nat.cast_nonneg _
    linarith

/-- C8: for a line of at least 11 pixels, the analysis returns score `0`
together with a rejection reason exactly when the run-length encoding has
fewer than 5 runs, or does not start with a dark run, or its first five runs
fail to alternate dark/light/dark/light/dark; otherwise the score is
strictly positive and no reason is recorded. -/
theorem C8_zero_score_iff_structure_invalid (line : List ℚ) (direction : Direction)
    (hlen : 11 ≤ line.length) :
    (((analyze_strict_qr_line_pattern ratio_tolerance line direction).score = 0 ∧
      (analyze_strict_qr_line_pattern ratio_tolerance line direction).reason ≠ none) ↔
      ((rle (binarizeLine line)).length < 5 ∨
       ((rle (binarizeLine line)).map Prod.fst).take 1 ≠ [0] ∨
       ((rle (binarizeLine line)).map Prod.fst).take 5 ≠ [0, 1, 0, 1, 0])) ∧
    (¬ ((rle (binarizeLine line)).length < 5 ∨
        ((rle (binarizeLine line)).map Prod.fst).take 1 ≠ [0] ∨
        ((rle (binarizeLine line)).map Prod.fst).take 5 ≠ [0, 1, 0, 1, 0]) →
      0 < (analyze_strict_qr_line_pattern ratio_tolerance line direction).score ∧
      (analyze_strict_qr_line_pattern ratio_tolerance line direction).reason = none) := by
  have hlen' : ¬ line.length < 11 := not_lt.mpr hlen
  simp only [analyze_strict_qr_line_pattern, if_neg hlen']
  generalize rle (binarizeLine line) = rs
  rcases rs with _ | ⟨⟨v0, l0⟩, _ | ⟨⟨v1, l1⟩, _ | ⟨⟨v2, l2⟩, _ | ⟨⟨v3, l3⟩,
    _ | ⟨⟨v4, l4⟩, rest⟩⟩⟩⟩⟩
  · simp
  · simp
  · simp
  · simp
  · simp
  · by_cases h0 : v0 = 0
    · subst h0
      by_cases h1 : v1 = 1
      · subst h1
        by_cases h2 : v2 = 0
        · subst h2
          by_cases h3 : v3 = 1
          · subst h3
            by_cases h4 : v4 = 0
            · subst h4
              constructor
              · constructor
                · rintro ⟨-, hre⟩
                  exact absurd rfl hre
                · intro hrhs
                  exfalso
                  rcases hrhs with hl | ht | ht
                  · simp only [List.length_cons] at hl
                    omega
                  · exact ht (by simp)
                  · exact ht (by simp [List.take])
              · intro _
                refine ⟨?_, rfl⟩
                refine lt_min (by norm_num) ?_
                simp only [ideal_ratios, List.zipWith, List.map, List.sum_cons,
                  List.sum_nil, add_zero]
                have hX := contributions_pos
                  ((l0 : ℚ) / ((l0 : ℚ) + (l1 : ℚ) + (l2 : ℚ) + (l3 : ℚ) + (l4 : ℚ)))
                  ((l1 : ℚ) / ((l0 : ℚ) + (l1 : ℚ) + (l2 : ℚ) + (l3 : ℚ) + (l4 : ℚ)))
                  ((l2 : ℚ) / ((l0 : ℚ) + (l1 : ℚ) + (l2 : ℚ) + (l3 : ℚ) + (l4 : ℚ)))
                  ((l3 : ℚ) / ((l0 : ℚ) + (l1 : ℚ) + (l2 : ℚ) + (l3 : ℚ) + (l4 : ℚ)))
                  ((l4 : ℚ) / ((l0 : ℚ) + (l1 : ℚ) + (l2 : ℚ) + (l3 : ℚ) + (l4 : ℚ)))
                  (by positivity) (by positivity) (by positivity) (by positivity)
                  (side_sum_le_one l0 l1 l2 l3 l4)
                split_ifs <;> linarith
            · simp [h4, List.take]
          · simp [h3, List.take]
        · simp [h2, List.take]
      · simp [h1, List.take]
    · simp [h0, List.take]

/-- Witness for `C8_zero_score_iff_structure_invalid` at the concrete
`[5,5,15,5,5]` line, whose run structure is valid. -/
theorem C8_zero_score_iff_structure_invalid_witness :
    11 ≤ exactLine.length ∧
    (¬ ((rle (binarizeLine exactLine)).length < 5 ∨
        ((rle (binarizeLine exactLine)).map Prod.fst).take 1 ≠ [0] ∨
        ((rle (binarizeLine exactLine)).map Prod.fst).take 5 ≠ [0, 1, 0, 1, 0]) →
      0 < (analyze_strict_qr_line_pattern ratio_tolerance exactLine
            Direction.horizontal).score ∧
      (analyze_strict_qr_line_pattern ratio_tolerance exactLine
            Direction.horizontal).reason = none) :=
  ⟨by rw [exactLine_length]; norm_num,
   (C8_zero_score_iff_structure_invalid exactLine Direction.horizontal
      (by rw [exactLine_length]; norm_num)).2⟩

/-- Rejection reason of `analyze_pattern_symmetry`
(source string: `'region too small'`). -/
inductive SymReason where
  | regionTooSmall
deriving DecidableEq, Repr

/-- Result dictionary of `analyze_pattern_symmetry`
(src/enhanced_strict_qr_detector.py:293-369).  The similarity fields absent
from the rejected result are modelled as `0`. -/
structure SymmetryResult where
  score : ℚ
  horizontal_similarity : ℚ
  vertical_similarity : ℚ
  combined_symmetry : ℚ
  reason : Option SymReason
deriving Repr

/-- `half_size = min(radius * 2, 40) // 2` of `analyze_pattern_symmetry`. -/
def symHalf (radius : ℕ) : ℤ := (min (2 * (radius : ℤ)) 40) / 2

/-- `x1 = max(0, cx - half_size)`. -/
def symX1 (cx : ℤ) (radius : ℕ) : ℤ := max 0 (cx - symHalf radius)

/-- `y1 = max(0, cy - half_size)`. -/
def symY1 (cy : ℤ) (radius : ℕ) : ℤ := max 0 (cy - symHalf radius)

/-- `x2 = min(w, cx + half_size)`. -/
def symX2 (w : ℕ) (cx : ℤ) (radius : ℕ) : ℤ := min (w : ℤ) (cx + symHalf radius)

/-- `y2 = min(h, cy + half_size)`. -/
def symY2 (h : ℕ) (cy : ℤ) (radius : ℕ) : ℤ := min (h : ℤ) (cy + symHalf radius)

/-- Horizontal similarity: the left half of the region compared against the
`np.fliplr`-mirrored right half, as `1 - mean(|difference|)/255`; the guard
`0 < …` is the source's `left_half.size > 0` check (the two halves always
have equal shape since `mid_w = region_w // 2`). -/
def symHSim (img : ℤ → ℤ → ℚ) (w h : ℕ) (cx cy : ℤ) (radius : ℕ) : ℚ :=
  let x1 := symX1 cx radius
  let y1 := symY1 cy radius
  let regionW := symX2 w cx radius - x1
  let regionH := symY2 h cy radius - y1
  let midW := regionW / 2
  let diffSum : ℚ := ((List.range regionH.toNat).map (fun (v : ℕ) =>
    ((List.range midW.toNat).map (fun (u : ℕ) =>
      |img (y1 + (v : ℤ)) (x1 + (u : ℤ)) -
        img (y1 + (v : ℤ)) (x1 + 2 * midW - 1 - (u : ℤ))|)).sum)).sum
  if 0 < regionH * midW then 1 - (diffSum / ((regionH * midW : ℤ) : ℚ)) / 255 else 0

/-- Vertical similarity: top half against the `np.flipud`-mirrored bottom
half. -/
def symVSim (img : ℤ → ℤ → ℚ) (w h : ℕ) (cx cy : ℤ) (radius : ℕ) : ℚ :=
  let x1 := symX1 cx radius
  let y1 := symY1 cy radius
  let regionW := symX2 w cx radius - x1
  let regionH := symY2 h cy radius - y1
  let midH := regionH / 2
  let diffSum : ℚ := ((List.range midH.toNat).map (fun (v : ℕ) =>
    ((List.range regionW.toNat).map (fun (u : ℕ) =>
      |img (y1 + (v : ℤ)) (x1 + (u : ℤ)) -
        img (y1 + 2 * midH - 1 - (v : ℤ)) (x1 + (u : ℤ))|)).sum)).sum
  if 0 < midH * regionW then 1 - (diffSum / ((midH * regionW : ℤ) : ℚ)) / 255 else 0

/-- The graduated quantization applied to the combined symmetry score
(src/enhanced_strict_qr_detector.py:352-361). -/
def symQuantize (s : ℚ) : ℚ :=
  if s > 8/10 then 1
  else if s > 7/10 then 8/10
  else if s > 6/10 then 6/10
  else if s > 5/10 then 4/10
  else 0

/-- `analyze_pattern_symmetry` (src/enhanced_strict_qr_detector.py:293-369).
The pixel buffer is `img : ℤ → ℤ → ℚ`, accessed as `img y x` like
`binary_image[y, x]`; `w`, `h` are the buffer dimensions. -/
def analyze_pattern_symmetry (img : ℤ → ℤ → ℚ) (w h : ℕ) (cx cy : ℤ)
    (radius : ℕ) : SymmetryResult :=
  if symX2 w cx radius - symX1 cx radius < 10 ∨
     symY2 h cy radius - symY1 cy radius < 10 then
    ⟨0, 0, 0, 0, some .regionTooSmall⟩
  else
    let hs := symHSim img w h cx cy radius
    let vs := symVSim img w h cx cy radius
    let combined := (hs + vs) / 2
    ⟨symQuantize combined, hs, vs, combined, none⟩

/-- C7 (amended): the symmetry score is the quantization of the average of
the two similarities with *strict* threshold comparisons:
`> 0.8 → 1.0`, `> 0.7 → 0.8`, `> 0.6 → 0.6`, `> 0.5 → 0.4`, else `0`
(exact threshold hits fall into the next lower bucket). -/
theorem C7_symmetry_strict_quantization (img : ℤ → ℤ → ℚ) (w h : ℕ)
    (cx cy : ℤ) (radius : ℕ) :
    (analyze_pattern_symmetry img w h cx cy radius).combined_symmetry =
      ((analyze_pattern_symmetry img w h cx cy radius).horizontal_similarity +
       (analyze_pattern_symmetry img w h cx cy radius).vertical_similarity) / 2 ∧
    (analyze_pattern_symmetry img w h cx cy radius).score =
      (if (analyze_pattern_symmetry img w h cx cy radius).combined_symmetry > 8/10 then 1
       else if (analyze_pattern_symmetry img w h cx cy radius).combined_symmetry > 7/10 then 8/10
       else if (analyze_pattern_symmetry img w h cx cy radius).combined_symmetry > 6/10 then 6/10
       else if (analyze_pattern_symmetry img w h cx cy radius).combined_symmetry > 5/10 then 4/10
       else 0) := by
  by_cases hregion : symX2 w cx radius - symX1 cx radius < 10 ∨
      symY2 h cy radius - symY1 cy radius < 10
  · rw [analyze_pattern_symmetry, if_pos hregion]
    norm_num
  · rw [analyze_pattern_symmetry, if_neg hregion]
    exact ⟨rfl, rfl⟩

/-- A binary image whose sampled 10×10 region (for center `(10,10)`,
radius `5`) has exactly one mismatching column pair under horizontal
mirroring and one mismatching row pair under vertical mirroring: pixel
`(y, x)` is white iff exactly one of `x = 5`, `y = 5` holds.  Both
similarities evaluate to exactly `0.8`. -/
def symImg : ℤ → ℤ → ℚ := fun y x =>
  if (x = 5 ∧ ¬ y = 5) ∨ (y = 5 ∧ ¬ x = 5) then 255 else 0

set_option maxHeartbeats 1000000 in
lemma symImg_hsim : symHSim symImg 20 20 10 10 5 = 4/5 := by
  have hx1 : symX1 10 5 = 5 := by decide
  have hy1 : symY1 10 5 = 5 := by decide
  have hx2 : symX2 20 10 5 = 15 := by decide
  have hy2 : symY2 20 10 5 = 15 := by decide
  simp only [symHSim, hx1, hy1, hx2, hy2,
    show ((15:ℤ) - 5) = 10 from by decide,
    show ((10:ℤ)/2) = 5 from by decide,
    show Int.toNat 5 = 5 from rfl,
    show Int.toNat 10 = 10 from rfl,
    List.range_succ, List.range_zero, List.map_append, List.map_cons, List.map_nil,
    List.sum_append, List.sum_cons, List.sum_nil]
  norm_num [symImg]

set_option maxHeartbeats 1000000 in
lemma symImg_vsim : symVSim symImg 20 20 10 10 5 = 4/5 := by
  have hx1 : symX1 10 5 = 5 := by decide
  have hy1 : symY1 10 5 = 5 := by decide
  have hx2 : symX2 20 10 5 = 15 := by decide
  have hy2 : symY2 20 10 5 = 15 := by decide
  simp only [symVSim, hx1, hy1, hx2, hy2,
    show ((15:ℤ) - 5) = 10 from by decide,
    show ((10:ℤ)/2) = 5 from by decide,
    show Int.toNat 5 = 5 from rfl,
    show Int.toNat 10 = 10 from rfl,
    List.range_succ, List.range_zero, List.map_append, List.map_cons, List.map_nil,
    List.sum_append, List.sum_cons, List.sum_nil]
  norm_num [symImg]

/-- C7 counterexample: on `symImg` the average of the similarities is
exactly `0.8`, and the code's strict comparison `> 0.8` assigns score `0.8`,
not the `1.0` the claim's `≥ 0.8` bucket predicts. -/
theorem C7_counterexample_avg_exactly_08 :
    (analyze_pattern_symmetry symImg 20 20 10 10 5).combined_symmetry = 8/10 ∧
    (analyze_pattern_symmetry symImg 20 20 10 10 5).score = 8/10 ∧
    (analyze_pattern_symmetry symImg 20 20 10 10 5).score ≠ 1 := by
  have hcond : ¬ (symX2 20 10 5 - symX1 10 5 < 10 ∨ symY2 20 10 5 - symY1 10 5 < 10) := by
    decide
  rw [analyze_pattern_symmetry, if_neg hcond]
  simp only [symImg_hsim, symImg_vsim]
  norm_num [symQuantize]

/-- `min(cx, cy, w - cx - 1, h - cy - 1)`, the largest radius that stays
inside the image; computed identically in `check_strict_concentric_structure`
and `analyze_strict_qr_pattern_structure`. -/
def maxSafeRadius (w h : ℕ) (cx cy : ℤ) : ℤ :=
  min (min cx cy) (min ((w : ℤ) - cx - 1) ((h : ℤ) - cy - 1))

/-- Ring-radius derivation of `check_strict_concentric_structure`
(src/enhanced_strict_qr_detector.py:387-404): base unit `size // 14` with
`size = radius * 2`, ring radii `max(2,b)`, `max(4,3b)`, `max(6,6b)`,
proportionally scaled down (`int()` truncation; all quantities are
nonnegative on the bounds-checked path, where truncation equals `⌊·⌋`)
whenever the outer radius would exceed `maxSafeRadius`.
Returns `(center_radius, first_ring_r, second_ring_r)`. -/
def ringRadii (w h : ℕ) (cx cy : ℤ) (radius : ℕ) : ℕ × ℕ × ℕ :=
  let base := (radius * 2) / 14
  let center_radius := max 2 base
  let first_ring := max 4 (base * 3)
  let second_ring := max 6 (base * 6)
  let max_safe : ℤ := maxSafeRadius w h cx cy
  if max_safe < (second_ring : ℤ) then
    let scale : ℚ := (max_safe : ℚ) / (second_ring : ℚ)
    (max 2 (Int.toNat ⌊(center_radius : ℚ) * scale⌋),
     Int.toNat ⌊(first_ring : ℚ) * scale⌋,
     Int.toNat ⌊(second_ring : ℚ) * scale⌋)
  else
    (center_radius, first_ring, second_ring)

/-- Circular center sampling of `check_strict_concentric_structure`
(src/enhanced_strict_qr_detector.py:409-416): all in-bounds pixels with
`dx² + dy² ≤ center_radius²`. -/
def concCenterPixels (img : ℤ → ℤ → ℚ) (w h : ℕ) (cx cy : ℤ) (cr : ℕ) : List ℚ :=
  (List.range (2 * cr + 1)).flatMap (fun (dy : ℕ) =>
    (List.range (2 * cr + 1)).filterMap (fun (dx : ℕ) =>
      let dxi : ℤ := (dx : ℤ) - (cr : ℤ)
      let dyi : ℤ := (dy : ℤ) - (cr : ℤ)
      if dxi ^ 2 + dyi ^ 2 ≤ (cr : ℤ) ^ 2 then
        let nx := cx + dxi
        let ny := cy + dyi
        if 0 ≤ nx ∧ nx < (w : ℤ) ∧ 0 ≤ ny ∧ ny < (h : ℤ) then some (img ny nx) else none
      else none))

/-- Ring sampling (src/enhanced_strict_qr_detector.py:439-446): 72 samples
at 5° increments.  The source position is
`(int(cx + r*cos(radians(angle))), int(cy + r*sin(radians(angle))))`;
the float-rounded trigonometric placement is abstracted as a
sampling-position oracle `sample r angle = (x, y)` over which every theorem
below is universally quantified (no conclusion depends on where on the ring
the samples land). -/
def concRingPixels (sample : ℕ → ℕ → ℤ × ℤ) (img : ℤ → ℤ → ℚ) (w h : ℕ)
    (r : ℕ) : List ℚ :=
  (List.range 72).filterMap (fun k =>
    let p := sample r (k * 5)
    if 0 ≤ p.1 ∧ p.1 < (w : ℤ) ∧ 0 ≤ p.2 ∧ p.2 < (h : ℤ) then some (img p.2 p.1)
    else none)

/-- Graduated first-ring (expected light) score
(src/enhanced_strict_qr_detector.py:468-477). -/
def firstRingScore (fr : ℚ) : ℚ :=
  if fr ≤ 3/10 then 1
  else if fr ≤ 4/10 then 8/10
  else if fr ≤ 5/10 then 6/10
  else if fr ≤ 6/10 then 3/10
  else 0

/-- Graduated second-ring (expected dark) score
(src/enhanced_strict_qr_detector.py:479-489). -/
def secondRingScore (sr : ℚ) : ℚ :=
  if sr ≥ 8/10 then 1
  else if sr ≥ 7/10 then 9/10
  else if sr ≥ 6/10 then 7/10
  else if sr ≥ 5/10 then 4/10
  else 0

/-- Center score with bonus for very dark centers
(src/enhanced_strict_qr_detector.py:491-496). -/
def centerScore (c : ℚ) : ℚ :=
  if c ≥ 9/10 then 1
  else if c ≥ 8/10 then 95/100
  else c

/-- Rejection reasons of `check_strict_concentric_structure`
(source strings: `'center out of bounds'`,
`'pattern too small for reliable ring analysis'`,
`'insufficient center samples'`, `'center not dark enough: …'`,
`'insufficient ring N samples'`, `'insufficient pattern quality: …'`). -/
inductive ConcReason where
  | centerOutOfBounds
  | patternTooSmall
  | insufficientCenterSamples
  | centerNotDark
  | insufficientRingSamples (n : ℕ)
  | insufficientQuality
deriving DecidableEq, Repr

/-- One entry of the `ring_info` list. -/
structure RingInfo where
  radius : ℕ
  dark_ratio : ℚ
  dark_count : ℕ
  total_pixels : ℕ
deriving Repr

/-- Result dictionary of `check_strict_concentric_structure`; dictionary
keys absent from a given return are modelled as `none`. -/
structure ConcentricResult where
  score : ℚ
  reason : Option ConcReason
  center_dark_ratio : Option ℚ
  rings : Option (RingInfo × RingInfo)
  quality_score : Option ℚ
  radii_used : Option (ℕ × ℕ × ℕ)
deriving Repr

/-- `check_strict_concentric_structure`
(src/enhanced_strict_qr_detector.py:371-532). -/
def check_strict_concentric_structure (sample : ℕ → ℕ → ℤ × ℤ)
    (img : ℤ → ℤ → ℚ) (w h : ℕ) (cx cy : ℤ) (radius : ℕ) : ConcentricResult :=
  if cx < 0 ∨ (w : ℤ) ≤ cx ∨ cy < 0 ∨ (h : ℤ) ≤ cy then
    ⟨0, some .centerOutOfBounds, none, none, none, none⟩
  else
    let radii := ringRadii w h cx cy radius
    let center_radius := radii.1
    let first_ring := radii.2.1
    let second_ring := radii.2.2
    if first_ring < 3 ∨ second_ring < 5 then
      ⟨0, some .patternTooSmall, none, none, none, none⟩
    else
      let center_pixels := concCenterPixels img w h cx cy center_radius
      if center_pixels.length < 4 then
        ⟨0, some .insufficientCenterSamples, none, none, none, none⟩
      else
        let center_dark_ratio : ℚ :=
          ((center_pixels.filter (fun p => p < 127)).length : ℚ) / (center_pixels.length : ℚ)
        if center_dark_ratio < 7/10 then
          ⟨0, some .centerNotDark, some center_dark_ratio, none, none, some radii⟩
        else
          let pix1 := concRingPixels sample img w h first_ring
          let pix2 := concRingPixels sample img w h second_ring
          if pix1.length < 30 then
            ⟨0, some (.insufficientRingSamples 1), none, none, none, none⟩
          else if pix2.length < 30 then
            ⟨0, some (.insufficientRingSamples 2), none, none, none, none⟩
          else
            let ring1 : RingInfo := ⟨first_ring,
              ((pix1.filter (fun p => p < 127)).length : ℚ) / (pix1.length : ℚ),
              (pix1.filter (fun p => p < 127)).length, pix1.length⟩
            let ring2 : RingInfo := ⟨second_ring,
              ((pix2.filter (fun p => p < 127)).length : ℚ) / (pix2.length : ℚ),
              (pix2.filter (fun p => p < 127)).length, pix2.length⟩
            let quality := centerScore center_dark_ratio * (25/100) +
              firstRingScore ring1.dark_ratio * (50/100) +
              secondRingScore ring2.dark_ratio * (25/100)
            if quality < 6/10 then
              ⟨0, some .insufficientQuality, some center_dark_ratio,
                some (ring1, ring2), some quality, some radii⟩
            else
              ⟨quality, none, some center_dark_ratio,
                some (ring1, ring2), some quality, some radii⟩

lemma unscaled_ring_lt (b : ℕ) : max 4 (b * 3) < max 6 (b * 6) := by
  rcases Nat.lt_or_ge b 2 with h2 | h2
  · interval_cases b <;> decide
  · rw [Nat.max_eq_right (by omega : 4 ≤ b * 3), Nat.max_eq_right (by omega : 6 ≤ b * 6)]
    omega

/-- Core radii invariant: whenever the scaled-down radii still pass the
`first < 3 ∨ second < 5` viability check (on the bounds-checked path, so
`maxSafeRadius ≥ 0`), the two ring radii are strictly increasing and both
bounded by `maxSafeRadius`. -/
lemma ringRadii_invariant (w h : ℕ) (cx cy : ℤ) (radius : ℕ)
    (hsafe : 0 ≤ maxSafeRadius w h cx cy)
    (hf : 3 ≤ (ringRadii w h cx cy radius).2.1)
    (hs : 5 ≤ (ringRadii w h cx cy radius).2.2) :
    (ringRadii w h cx cy radius).2.1 < (ringRadii w h cx cy radius).2.2 ∧
    ((ringRadii w h cx cy radius).2.1 : ℤ) ≤ maxSafeRadius w h cx cy ∧
    ((ringRadii w h cx cy radius).2.2 : ℤ) ≤ maxSafeRadius w h cx cy := by
  have hlt := unscaled_ring_lt ((radius * 2) / 14)
  simp only [ringRadii] at hf hs ⊢
  split_ifs at hf hs ⊢ with hscale
  · -- scaled case: `maxSafeRadius < second`
    dsimp only at hf hs ⊢
    set b := (radius * 2) / 14 with hb
    set M := maxSafeRadius w h cx cy with hM
    have hsecpos : 0 < max 6 (b * 6) := lt_of_lt_of_le (by norm_num) (Nat.le_max_left _ _)
    have hsecne : ((max 6 (b * 6) : ℕ) : ℚ) ≠ 0 := Nat.cast_ne_zero.mpr hsecpos.ne'
    have hsec_eval : ((max 6 (b * 6) : ℕ) : ℚ) * ((M : ℚ) / ((max 6 (b * 6) : ℕ) : ℚ))
        = (M : ℚ) := by
      rw [mul_comm, div_mul_cancel₀ _ hsecne]
    have hfloor2 : ⌊((max 6 (b * 6) : ℕ) : ℚ) * ((M : ℚ) / ((max 6 (b * 6) : ℕ) : ℚ))⌋ = M := by
      rw [hsec_eval, Int.floor_intCast]
    rw [hfloor2] at hs ⊢
    have hMpos : (0 : ℤ) < M := by omega
    have hx : ((max 4 (b * 3) : ℕ) : ℚ) * ((M : ℚ) / ((max 6 (b * 6) : ℕ) : ℚ)) < (M : ℚ) := by
      rw [mul_div_assoc', div_lt_iff₀ (by exact_mod_cast hsecpos)]
      have hcast : ((max 4 (b * 3) : ℕ) : ℚ) < ((max 6 (b * 6) : ℕ) : ℚ) :=
        Nat.cast_lt.mpr hlt
      have hMq : (0 : ℚ) < (M : ℚ) := by exact_mod_cast hMpos
      nlinarith
    have hfl : ⌊((max 4 (b * 3) : ℕ) : ℚ) * ((M : ℚ) / ((max 6 (b * 6) : ℕ) : ℚ))⌋ < M :=
      Int.floor_lt.mpr (by exact_mod_cast hx)
    generalize hF : ⌊((max 4 (b * 3) : ℕ) : ℚ) * ((M : ℚ) / ((max 6 (b * 6) : ℕ) : ℚ))⌋ = F
      at hf hfl ⊢
    omega
  · -- unscaled case: `second ≤ maxSafeRadius`
    dsimp only at hf hs ⊢
    push_neg at hscale
    refine ⟨hlt, ?_, hscale⟩
    have : ((max 4 ((radius * 2) / 14 * 3) : ℕ) : ℤ) ≤ (max 6 ((radius * 2) / 14 * 6) : ℕ) := by
      exact_mod_cast hlt.le
    omega

/-- C9: every concentric-analysis result that carries ring information —
the accepted result and the `insufficient pattern quality` rejection — has
strictly increasing ring radii, both bounded by
`min(cx, cy, w-cx-1, h-cy-1)`, including after the proportional
scale-down. -/
theorem C9_ring_radii_invariant (sample : ℕ → ℕ → ℤ × ℤ) (img : ℤ → ℤ → ℚ)
    (w h : ℕ) (cx cy : ℤ) (radius : ℕ) (r1 r2 : RingInfo)
    (hr : (check_strict_concentric_structure sample img w h cx cy radius).rings
      = some (r1, r2)) :
    r1.radius < r2.radius ∧
    (r1.radius : ℤ) ≤ maxSafeRadius w h cx cy ∧
    (r2.radius : ℤ) ≤ maxSafeRadius w h cx cy := by
  simp only [check_strict_concentric_structure] at hr
  split_ifs at hr with hbounds hsmall hclen hdark hp1 hp2 hqual
  all_goals simp only [Option.some.injEq, Prod.mk.injEq] at hr
  · -- insufficient quality, rings present
    obtain ⟨h1, h2⟩ := hr
    push_neg at hbounds hsmall
    have hsafe : 0 ≤ maxSafeRadius w h cx cy := by
      unfold maxSafeRadius
      omega
    have := ringRadii_invariant w h cx cy radius hsafe hsmall.1 hsmall.2
    rw [← h1, ← h2]
    exact this
  · -- accepted, rings present
    obtain ⟨h1, h2⟩ := hr
    push_neg at hbounds hsmall
    have hsafe : 0 ≤ maxSafeRadius w h cx cy := by
      unfold maxSafeRadius
      omega
    have := ringRadii_invariant w h cx cy radius hsafe hsmall.1 hsmall.2
    rw [← h1, ← h2]
    exact this

lemma filterMap_const_some {α β : Type} (c : β) (l : List α) :
    l.filterMap (fun _ => some c) = List.replicate l.length c := by
  induction l with
  | nil => rfl
  | cons a t ih => simp [List.filterMap_cons, ih, List.replicate]

lemma filter_replicate_zero_lt (n : ℕ) :
    (List.replicate n (0 : ℚ)).filter (fun p => p < 127) = List.replicate n 0 := by
  induction n with
  | zero => rfl
  | succ m ih =>
      rw [List.replicate_succ, List.filter_cons]
      simp only [ih, List.replicate_succ]
      norm_num

/-- The all-dark test sampler: every ring sample lands on pixel `(20, 20)`. -/
def darkSample : ℕ → ℕ → ℤ × ℤ := fun _ _ => (20, 20)

/-- The all-dark 40×40 test image. -/
def darkImg : ℤ → ℤ → ℚ := fun _ _ => 0

lemma darkRingPixels (r : ℕ) :
    concRingPixels darkSample darkImg 40 40 r = List.replicate 72 0 := by
  unfold concRingPixels darkSample darkImg
  have : (fun (k : ℕ) =>
      if 0 ≤ ((20, 20) : ℤ × ℤ).1 ∧ ((20, 20) : ℤ × ℤ).1 < ((40 : ℕ) : ℤ) ∧
         0 ≤ ((20, 20) : ℤ × ℤ).2 ∧ ((20, 20) : ℤ × ℤ).2 < ((40 : ℕ) : ℤ) then
        some (0 : ℚ) else none) = fun _ => some (0 : ℚ) := by
    funext k
    norm_num
  rw [this, filterMap_const_some, List.length_range]

set_option maxHeartbeats 1000000 in
lemma darkCenterPixels :
    concCenterPixels darkImg 40 40 20 20 2 = List.replicate 13 0 := by
  unfold concCenterPixels darkImg
  simp [List.range_succ, List.replicate]

lemma dark_conc_rings :
    (check_strict_concentric_structure darkSample darkImg 40 40 20 20 10).rings
      = some (⟨4, 1, 72, 72⟩, ⟨6, 1, 72, 72⟩) := by
  have hradii : ringRadii 40 40 20 20 10 = (2, 4, 6) := by
    simp only [ringRadii, maxSafeRadius]
    norm_num
  simp only [check_strict_concentric_structure, hradii]
  norm_num [darkCenterPixels, darkRingPixels, filter_replicate_zero_lt,
    centerScore, firstRingScore, secondRingScore]

/-- Witness for `C9_ring_radii_invariant`: on the all-dark image the analysis
reaches the `insufficient pattern quality` rejection, which carries rings of
radii 4 and 6 with `maxSafeRadius = 19`. -/
theorem C9_ring_radii_invariant_witness :
    (4 : ℕ) < 6 ∧ ((4 : ℕ) : ℤ) ≤ maxSafeRadius 40 40 20 20 ∧
    ((6 : ℕ) : ℤ) ≤ maxSafeRadius 40 40 20 20 := by
  have h := C9_ring_radii_invariant darkSample darkImg 40 40 20 20 10
    ⟨4, 1, 72, 72⟩ ⟨6, 1, 72, 72⟩ dark_conc_rings
  exact h

/-- Rejection reasons of `analyze_strict_qr_pattern_structure` (source
strings `'center out of bounds'`, `'radius too small'`). -/
inductive StructReason where
  | centerOutOfBounds
  | radiusTooSmall
deriving DecidableEq, Repr

/-- Result dictionary of `analyze_strict_qr_pattern_structure`
(src/enhanced_strict_qr_detector.py:119-182); component dictionaries absent
from a rejected result are modelled as `none`. -/
structure StructResult where
  score : ℚ
  reason : Option StructReason
  concentric : Option ConcentricResult
  symmetry : Option SymmetryResult
  line_results : List LineResult
  line_pattern_score : ℚ
  valid_directions : ℕ
deriving Repr

/-- The four scan directions `(dx, dy)`
(src/enhanced_strict_qr_detector.py:140-145). -/
def structDirections : List (ℤ × ℤ × Direction) :=
  [(1, 0, Direction.horizontal), (0, 1, Direction.vertical),
   (1, 1, Direction.diagonal), (1, -1, Direction.antiDiagonal)]

/-- Pixel extraction along one direction through the center
(src/enhanced_strict_qr_detector.py:147-157): indices
`i ∈ [-max_range, max_range]` with `max_range = min(radius, 30)`,
keeping only in-bounds positions. -/
def linePixels (img : ℤ → ℤ → ℚ) (w h : ℕ) (cx cy : ℤ) (radius : ℤ)
    (dx dy : ℤ) : List ℚ :=
  let max_range : ℤ := min radius 30
  (List.range (2 * max_range + 1).toNat).filterMap (fun (k : ℕ) =>
    let i : ℤ := (k : ℤ) - max_range
    let x := cx + i * dx
    let y := cy + i * dy
    if 0 ≤ x ∧ x < (w : ℤ) ∧ 0 ≤ y ∧ y < (h : ℤ) then some (img y x) else none)

/-- `analyze_strict_qr_pattern_structure`
(src/enhanced_strict_qr_detector.py:119-182): concentric test, symmetry
test, line tests in four directions, fused as
`concentric*0.40 + linePattern*0.40 + symmetry*0.20` where the line-pattern
score is the mean over directions whose line analysis scored above zero
(`0` when none did). -/
def analyze_strict_qr_pattern_structure (sample : ℕ → ℕ → ℤ × ℤ)
    (img : ℤ → ℤ → ℚ) (w h : ℕ) (cx cy : ℤ) (size : ℕ) : StructResult :=
  if cx < 0 ∨ (w : ℤ) ≤ cx ∨ cy < 0 ∨ (h : ℤ) ≤ cy then
    ⟨0, some .centerOutOfBounds, none, none, [], 0, 0⟩
  else
    let radius : ℤ := min ((size : ℤ) / 2) (maxSafeRadius w h cx cy)
    if radius < 5 then ⟨0, some .radiusTooSmall, none, none, [], 0, 0⟩
    else
      let conc := check_strict_concentric_structure sample img w h cx cy radius.toNat
      let sym := analyze_pattern_symmetry img w h cx cy radius.toNat
      let line_results := structDirections.filterMap (fun d =>
        let pixels := linePixels img w h cx cy radius d.1 d.2.1
        if 10 < pixels.length then
          some (analyze_strict_qr_line_pattern ratio_tolerance pixels d.2.2)
        else none)
      let line_scores := (line_results.map LineResult.score).filter (fun s => 0 < s)
      let line_pattern_score : ℚ :=
        if line_scores.isEmpty then 0 else line_scores.sum / (line_scores.length : ℚ)
      let final := conc.score * (40/100) + line_pattern_score * (40/100) +
        sym.score * (20/100)
      ⟨final, none, some conc, some sym, line_results, line_pattern_score,
        line_scores.length⟩

/-- A pattern record as assembled by `find_qr_patterns_multi_threshold`
for candidates whose structure score clears the threshold
(src/enhanced_strict_qr_detector.py:629-639). -/
structure FoundPattern where
  center : ℤ × ℤ
  size : ℕ
  score : ℚ
  analysis : StructResult
deriving Repr

/-- The per-contour filtering loop of `find_qr_patterns_multi_threshold`
(src/enhanced_strict_qr_detector.py:624-643): every surviving contour
candidate `(cx, cy, size)` is analyzed, and kept exactly when
`pattern_result['score'] > 0.5`. -/
def filterPatternsByScore (sample : ℕ → ℕ → ℤ × ℤ) (img : ℤ → ℤ → ℚ)
    (w h : ℕ) (cands : List (ℤ × ℤ × ℕ)) : List FoundPattern :=
  cands.filterMap (fun c =>
    let r := analyze_strict_qr_pattern_structure sample img w h c.1 c.2.1 c.2.2
    if 1/2 < r.score then some ⟨(c.1, c.2.1), c.2.2, r.score, r⟩ else none)

/-- C3: an analyzed candidate's composite score is
`0.40·concentric + 0.40·(mean of positive line scores, 0 if none) +
0.20·symmetry`, and a candidate enters the detected-pattern list exactly
when that composite score is strictly greater than `0.5`. -/
theorem C3_composite_score_and_keep_threshold :
    (∀ (sample : ℕ → ℕ → ℤ × ℤ) (img : ℤ → ℤ → ℚ) (w h : ℕ) (cx cy : ℤ) (size : ℕ),
      (analyze_strict_qr_pattern_structure sample img w h cx cy size).reason = none →
      ∃ c s, (analyze_strict_qr_pattern_structure sample img w h cx cy size).concentric
          = some c ∧
        (analyze_strict_qr_pattern_structure sample img w h cx cy size).symmetry = some s ∧
        (analyze_strict_qr_pattern_structure sample img w h cx cy size).score =
          c.score * (40/100) +
          (if (((analyze_strict_qr_pattern_structure sample img w h cx cy size).line_results.map
                LineResult.score).filter (fun q => 0 < q)).isEmpty then 0
           else (((analyze_strict_qr_pattern_structure sample img w h cx cy size).line_results.map
                LineResult.score).filter (fun q => 0 < q)).sum /
              ((((analyze_strict_qr_pattern_structure sample img w h cx cy size).line_results.map
                LineResult.score).filter (fun q => 0 < q)).length : ℚ)) * (40/100) +
          s.score * (20/100)) ∧
    (∀ (sample : ℕ → ℕ → ℤ × ℤ) (img : ℤ → ℤ → ℚ) (w h : ℕ)
      (cands : List (ℤ × ℤ × ℕ)) (p : FoundPattern),
      p ∈ filterPatternsByScore sample img w h cands ↔
      ∃ c ∈ cands,
        1/2 < (analyze_strict_qr_pattern_structure sample img w h c.1 c.2.1 c.2.2).score ∧
        p = ⟨(c.1, c.2.1), c.2.2,
          (analyze_strict_qr_pattern_structure sample img w h c.1 c.2.1 c.2.2).score,
          analyze_strict_qr_pattern_structure sample img w h c.1 c.2.1 c.2.2⟩) := by
  constructor
  · intro sample img w h cx cy size hreason
    unfold analyze_strict_qr_pattern_structure at hreason ⊢
    by_cases h1 : cx < 0 ∨ (w : ℤ) ≤ cx ∨ cy < 0 ∨ (h : ℤ) ≤ cy
    · rw [if_pos h1] at hreason
      exact absurd hreason (by simp)
    · rw [if_neg h1] at hreason ⊢
      dsimp only at hreason ⊢
      by_cases h2 : min ((size : ℤ) / 2) (maxSafeRadius w h cx cy) < 5
      · rw [if_pos h2] at hreason
        exact absurd hreason (by simp)
      · rw [if_neg h2]
        exact ⟨_, _, rfl, rfl, rfl⟩
  · intro sample img w h cands p
    simp only [filterPatternsByScore, List.mem_filterMap]
    constructor
    · rintro ⟨c, hc, hfc⟩
      split_ifs at hfc with hcond
      exact ⟨c, hc, hcond, (Option.some.inj hfc).symm⟩
    · rintro ⟨c, hc, hcond, rfl⟩
      exact ⟨c, hc, by rw [if_pos hcond]⟩

/-- Witness for `C3_composite_score_and_keep_threshold`: the all-dark image
candidate at `(20, 20)` with size 12 is analyzed without rejection. -/
theorem C3_composite_score_and_keep_threshold_witness :
    (analyze_strict_qr_pattern_structure darkSample darkImg 40 40 20 20 12).reason = none ∧
    ∃ c s, (analyze_strict_qr_pattern_structure darkSample darkImg 40 40 20 20 12).concentric
        = some c ∧
      (analyze_strict_qr_pattern_structure darkSample darkImg 40 40 20 20 12).symmetry = some s ∧
      (analyze_strict_qr_pattern_structure darkSample darkImg 40 40 20 20 12).score =
        c.score * (40/100) +
        (if (((analyze_strict_qr_pattern_structure darkSample darkImg 40 40 20 20 12).line_results.map
              LineResult.score).filter (fun q => 0 < q)).isEmpty then 0
         else (((analyze_strict_qr_pattern_structure darkSample darkImg 40 40 20 20 12).line_results.map
              LineResult.score).filter (fun q => 0 < q)).sum /
            ((((analyze_strict_qr_pattern_structure darkSample darkImg 40 40 20 20 12).line_results.map
              LineResult.score).filter (fun q => 0 < q)).length : ℚ)) * (40/100) +
        s.score * (20/100) :=
  ⟨rfl, C3_composite_score_and_keep_threshold.1 darkSample darkImg 40 40 20 20 12 rfl⟩

/-!
`select_best_qr_patterns` (src/enhanced_strict_qr_detector.py:685-801).
The enhanced candidates enter the greedy selection stage carrying their
`combined_score` (`0.6·score + 0.4·qr_quality_score`, computed upstream at
lines 696-748; the quality signal involves `np.std` over line scores, an
irrational quantity that only influences the sort order, which is why the
selection stage is modelled over candidates that already carry the field,
exactly as the source stores it in the enhanced pattern dict).
Distance checks `np.sqrt(dx²+dy²) < d` are embedded squared as
`dx²+dy² < d²` (equivalent: both sides nonnegative and `sqrt` monotone).
-/

/-- An enhanced candidate at the selection stage: its integer pixel center
and its `combined_score`. -/
structure EPattern where
  center : ℤ × ℤ
  combined_score : ℚ
deriving DecidableEq, Repr

/-- Squared Euclidean distance between centers. -/
def distSq (p q : ℤ × ℤ) : ℤ := (p.1 - q.1) ^ 2 + (p.2 - q.2) ^ 2

/-- The `too_close` scan of the greedy loops: some already-selected
candidate lies strictly closer than the separation `d` (given squared). -/
def tooClose (p : EPattern) (selected : List EPattern) (dSq : ℤ) : Bool :=
  selected.any (fun q => distSq p.center q.center < dSq)

/-- Descending sort key: `sort(key=lambda x: x['combined_score'], reverse=True)`. -/
def scoreGe (p q : EPattern) : Prop := q.combined_score ≤ p.combined_score

instance : DecidableRel scoreGe := fun _ _ => inferInstanceAs (Decidable (_ ≤ _))

/-- First greedy pass (src/enhanced_strict_qr_detector.py:753-774):
`min_distance = 50`, stop once 4 candidates are selected. -/
def strictPass : List EPattern → List EPattern → List EPattern
  | [], acc => acc
  | p :: rest, acc =>
      if tooClose p acc 2500 then strictPass rest acc
      else if 4 ≤ (acc ++ [p]).length then acc ++ [p]
      else strictPass rest (acc ++ [p])

/-- Relaxed second pass (src/enhanced_strict_qr_detector.py:776-799), run
only when fewer than 3 candidates survive the first pass:
`relaxed_distance = 30`, skipping candidates already selected, stopping at 4. -/
def relaxedPass : List EPattern → List EPattern → List EPattern
  | [], acc => acc
  | p :: rest, acc =>
      if p ∈ acc then relaxedPass rest acc
      else if tooClose p acc 900 then relaxedPass rest acc
      else if 4 ≤ (acc ++ [p]).length then acc ++ [p]
      else relaxedPass rest (acc ++ [p])

/-- `select_best_qr_patterns` (src/enhanced_strict_qr_detector.py:685-801):
inputs of at most 4 candidates are returned unchanged (`if len(patterns)
<= 4: return patterns`); otherwise candidates are sorted descending by
`combined_score` (Python's stable sort, modelled by `insertionSort`) and
greedily selected with 50px separation, relaxed to 30px when fewer than 3
survive. -/
def select_best_qr_patterns (patterns : List EPattern) : List EPattern :=
  if patterns.length ≤ 4 then patterns
  else
    let sorted := List.insertionSort scoreGe patterns
    let final := strictPass sorted []
    if final.length < 3 then relaxedPass sorted final else final

lemma distSq_comm (p q : ℤ × ℤ) : distSq p q = distSq q p := by
  unfold distSq
  ring

lemma pairwise_snoc (d : ℤ) (acc : List EPattern) (p : EPattern)
    (hacc : acc.Pairwise (fun a b => d ≤ distSq a.center b.center))
    (h : ¬ tooClose p acc d = true) :
    (acc ++ [p]).Pairwise (fun a b => d ≤ distSq a.center b.center) := by
  rw [List.pairwise_append]
  refine ⟨hacc, by simp, ?_⟩
  intro a ha b hb
  simp only [List.mem_singleton] at hb
  rw [hb]
  have hnot : ¬ distSq p.center a.center < d := by
    intro hlt
    exact h (by
      simp only [tooClose, List.any_eq_true, decide_eq_true_eq]
      exact ⟨a, ha, hlt⟩)
  rw [distSq_comm p.center a.center] at hnot
  omega

lemma strictPass_pairwise (rest : List EPattern) (acc : List EPattern)
    (hacc : acc.Pairwise (fun a b => 2500 ≤ distSq a.center b.center)) :
    (strictPass rest acc).Pairwise (fun a b => 2500 ≤ distSq a.center b.center) := by
  induction rest generalizing acc with
  | nil => exact hacc
  | cons p rest ih =>
      rw [strictPass]
      split_ifs with hclose hfour
      · exact ih acc hacc
      · exact pairwise_snoc 2500 acc p hacc (by simpa using hclose)
      · exact ih _ (pairwise_snoc 2500 acc p hacc (by simpa using hclose))

lemma relaxedPass_pairwise (rest : List EPattern) (acc : List EPattern)
    (hacc : acc.Pairwise (fun a b => 900 ≤ distSq a.center b.center)) :
    (relaxedPass rest acc).Pairwise (fun a b => 900 ≤ distSq a.center b.center) := by
  induction rest generalizing acc with
  | nil => exact hacc
  | cons p rest ih =>
      rw [relaxedPass]
      split_ifs with hmem hclose hfour
      · exact ih acc hacc
      · exact ih acc hacc
      · exact pairwise_snoc 900 acc p hacc (by simpa using hclose)
      · exact ih _ (pairwise_snoc 900 acc p hacc (by simpa using hclose))

lemma strictPass_length_le (rest : List EPattern) (acc : List EPattern)
    (hacc : acc.length ≤ 3) : (strictPass rest acc).length ≤ 4 := by
  induction rest generalizing acc with
  | nil => exact le_trans hacc (by norm_num)
  | cons p rest ih =>
      rw [strictPass]
      split_ifs with hclose hfour
      · exact ih acc hacc
      · simp
        omega
      · refine ih _ ?_
        simp only [List.length_append, List.length_singleton] at hfour ⊢
        omega

lemma relaxedPass_length_le (rest : List EPattern) (acc : List EPattern)
    (hacc : acc.length ≤ 3) : (relaxedPass rest acc).length ≤ 4 := by
  induction rest generalizing acc with
  | nil => exact le_trans hacc (by norm_num)
  | cons p rest ih =>
      rw [relaxedPass]
      split_ifs with hmem hclose hfour
      · exact ih acc hacc
      · exact ih acc hacc
      · simp
        omega
      · refine ih _ ?_
        simp only [List.length_append, List.length_singleton] at hfour ⊢
        omega

/-- C6 (amended): the size bound holds universally, but the separation
invariant only holds when more than 4 candidates are input — with at most 4
candidates the list is returned unchanged, separation unchecked.  For more
than 4 candidates: at most 4 are selected, every selected pair is at least
30px apart (squared: 900), and when the strict pass alone yields at least 3
candidates the selection is exactly that pass's output, with every pair at
least 50px apart (squared: 2500). -/
theorem C6_selection_separation :
    (∀ ps : List EPattern, (select_best_qr_patterns ps).length ≤ 4) ∧
    (∀ ps : List EPattern, 4 < ps.length →
      (select_best_qr_patterns ps).Pairwise
        (fun a b => 900 ≤ distSq a.center b.center) ∧
      (3 ≤ (strictPass (List.insertionSort scoreGe ps) []).length →
        select_best_qr_patterns ps = strictPass (List.insertionSort scoreGe ps) [] ∧
        (select_best_qr_patterns ps).Pairwise
          (fun a b => 2500 ≤ distSq a.center b.center))) ∧
    (∀ ps : List EPattern, ps.length ≤ 4 → select_best_qr_patterns ps = ps) := by
  have hsel : ∀ ps : List EPattern, 4 < ps.length →
      select_best_qr_patterns ps =
        (if (strictPass (List.insertionSort scoreGe ps) []).length < 3 then
          relaxedPass (List.insertionSort scoreGe ps)
            (strictPass (List.insertionSort scoreGe ps) [])
         else strictPass (List.insertionSort scoreGe ps) []) := by
    intro ps hps
    rw [select_best_qr_patterns, if_neg (by omega)]
  refine ⟨?_, ?_, ?_⟩
  · intro ps
    by_cases hps : 4 < ps.length
    · rw [hsel ps hps]
      split_ifs with hlt
      · exact relaxedPass_length_le _ _ (by omega)
      · exact strictPass_length_le _ _ (by norm_num)
    · rw [select_best_qr_patterns, if_pos (by omega)]
      omega
  · intro ps hps
    have hstrict := strictPass_pairwise (List.insertionSort scoreGe ps) [] (by simp)
    constructor
    · rw [hsel ps hps]
      split_ifs with hlt
      · exact relaxedPass_pairwise _ _
          (hstrict.imp (fun hab => by omega))
      · exact hstrict.imp (fun hab => by omega)
    · intro h3
      rw [hsel ps hps, if_neg (by omega)]
      exact ⟨rfl, hstrict⟩
  · intro ps hps
    rw [select_best_qr_patterns, if_pos hps]

/-- Two candidates 10px apart. -/
def closeA : EPattern := ⟨(0, 0), 1⟩

/-- Second close candidate. -/
def closeB : EPattern := ⟨(10, 0), 1⟩

/-- C6 counterexample: with at most 4 candidates the selection returns its
input unchanged, so two candidates only 10px apart are both "selected",
violating the claimed pairwise minimum separation (30px relaxed, let alone
50px). -/
theorem C6_counterexample_passthrough :
    select_best_qr_patterns [closeA, closeB] = [closeA, closeB] ∧
    ¬ (select_best_qr_patterns [closeA, closeB]).Pairwise
        (fun a b => 900 ≤ distSq a.center b.center) := by
  constructor
  · rfl
  · intro hp
    rw [show select_best_qr_patterns [closeA, closeB] = [closeA, closeB] from rfl] at hp
    have := (List.pairwise_cons.mp hp).1 closeB (by simp)
    revert this
    decide

/-- Witness for `C6_selection_separation`: five collinear candidates 100px
apart; the strict pass selects the four highest-ranked ones. -/
theorem C6_selection_separation_witness :
    (select_best_qr_patterns
      [⟨(0, 0), 1⟩, ⟨(100, 0), 1⟩, ⟨(200, 0), 1⟩, ⟨(300, 0), 1⟩, ⟨(400, 0), 1⟩]).length ≤ 4 ∧
    (select_best_qr_patterns
      [⟨(0, 0), 1⟩, ⟨(100, 0), 1⟩, ⟨(200, 0), 1⟩, ⟨(300, 0), 1⟩, ⟨(400, 0), 1⟩]).Pairwise
      (fun a b => 900 ≤ distSq a.center b.center) ∧
    select_best_qr_patterns [closeA, closeB] = [closeA, closeB] :=
  ⟨C6_selection_separation.1 _,
   (C6_selection_separation.2.1 _ (by norm_num)).1,
   C6_selection_separation.2.2 [closeA, closeB] (by norm_num)⟩

end Detector

namespace Grid

/-!
`GridSystem.extract_grid_cells` and `GridSystem.extract_border_cells`
(src/qr_rectangle_detector.py:487-547 and 549-671).  Both functions run the
identical preprocessing pipeline (corner expansion, clockwise ordering,
perspective transform to a 420×420 square, grayscale conversion, OTSU
binarization — lines 500-522 and 562-584 are textually the same code, so
for the same image and corners both see the same binarized buffer) and then
read each cell's mean intensity over the same cell boundaries
`[i*cell_h, (i+1)*cell_h) × [j*cell_w, (j+1)*cell_w)` with
`cell_w = 420 // grid_w`, `cell_h = 420 // grid_h`.  The two functions are
embedded from the cell-reading stage on, over the shared binarized buffer
`binary : ℤ → ℤ → ℚ` (indexed `binary y x`). -/

/-- `np.mean` of the cell `binary[i*cell_h:(i+1)*cell_h, j*cell_w:(j+1)*cell_w]`. -/
def cellMean (binary : ℤ → ℤ → ℚ) (cellW cellH : ℕ) (i j : ℕ) : ℚ :=
  (((List.range cellH).map (fun (dy : ℕ) =>
    ((List.range cellW).map (fun (dx : ℕ) =>
      binary ((i * cellH : ℕ) + (dy : ℤ)) ((j * cellW : ℕ) + (dx : ℤ)))).sum)).sum)
    / ((cellH * cellW : ℕ) : ℚ)

/-- The cell bit assigned by `extract_grid_cells`
(src/qr_rectangle_detector.py:542-545): `1 if mean_value > 127 else 0`. -/
def grid_cell_value (binary : ℤ → ℤ → ℚ) (gridW gridH : ℕ) (i j : ℕ) : ℕ :=
  if cellMean binary (420 / gridW) (420 / gridH) i j > 127 then 1 else 0

/-- The cell bit assigned by `extract_border_cells`
(src/qr_rectangle_detector.py:612-614):
`0 if mean_value > 127 else 1  # 0=white, 1=black`. -/
def border_cell_value (binary : ℤ → ℤ → ℚ) (gridW gridH : ℕ) (i j : ℕ) : ℕ :=
  if cellMean binary (420 / gridW) (420 / gridH) i j > 127 then 0 else 1

/-- A cell position recorded by the border extraction: top row, bottom row,
left or right column (src/qr_rectangle_detector.py:624-643). -/
def isBorderCell (gridW gridH : ℕ) (i j : ℕ) : Prop :=
  i = 0 ∨ i = gridH - 1 ∨ j = 0 ∨ j = gridW - 1

/-- C10: for every binarized buffer, every grid size, and every border cell,
the bit reported by the border-cell extraction is the logical complement of
the bit reported by the full grid-cell extraction of the same cell: the
grid extractor maps `mean > 127` to `1`, the border extractor maps the same
condition to `0`. -/
theorem C10_border_bit_is_complement (binary : ℤ → ℤ → ℚ) (gridW gridH : ℕ)
    (i j : ℕ) (_hb : isBorderCell gridW gridH i j) :
    border_cell_value binary gridW gridH i j
      = 1 - grid_cell_value binary gridW gridH i j ∧
    (grid_cell_value binary gridW gridH i j = 1 ↔
      cellMean binary (420 / gridW) (420 / gridH) i j > 127) ∧
    (border_cell_value binary gridW gridH i j = 0 ↔
      cellMean binary (420 / gridW) (420 / gridH) i j > 127) := by
  unfold border_cell_value grid_cell_value
  split_ifs with hm
  · simp [hm]
  · simp [hm]

lemma sum_map_const (n : ℕ) (c : ℚ) : ((List.range n).map (fun _ => c)).sum = n * c := by
  induction n with
  | zero => simp
  | succ m ih =>
      rw [List.range_succ]
      simp [ih]
      ring

/-- The all-white binarized buffer. -/
def whiteBinary : ℤ → ℤ → ℚ := fun _ _ => 255

lemma whiteCellMean : cellMean whiteBinary 20 20 0 0 = 255 := by
  unfold cellMean whiteBinary
  rw [sum_map_const, sum_map_const]
  norm_num

/-- Witness for `C10_border_bit_is_complement`: the top-left corner cell of
the default 21×21 grid over an all-white buffer (`cell = 20×20`, mean 255):
the grid extractor reports `1`, the border extractor reports `0`. -/
theorem C10_border_bit_is_complement_witness :
    isBorderCell 21 21 0 0 ∧
    border_cell_value whiteBinary 21 21 0 0 = 1 - grid_cell_value whiteBinary 21 21 0 0 ∧
    grid_cell_value whiteBinary 21 21 0 0 = 1 ∧
    border_cell_value whiteBinary 21 21 0 0 = 0 := by
  have h := C10_border_bit_is_complement whiteBinary 21 21 0 0 (Or.inl rfl)
  have hmean : cellMean whiteBinary (420 / 21) (420 / 21) 0 0 = 255 := by
    rw [show (420 / 21 : ℕ) = 20 from rfl]
    exact whiteCellMean
  refine ⟨Or.inl rfl, h.1, h.2.1.mpr ?_, h.2.2.mpr ?_⟩ <;>
    rw [hmean] <;> norm_num

end Grid
